import Mathlib

/-!
Verification of the naming / sequencing / settings-resolution core of the
work-camera application.

The TypeScript sources are embedded shallowly:
* strings are `List Char` (`Str`), string primitives (`replace` on its first
  occurrence, `split`, `padStart`, `Number`, `parseInt`, `trim`) are modelled
  by explicit recursive functions;
* filesystem contents are explicit lists of filenames, `RNFS.exists` is list
  membership, and the async collision loops of `saveFile` / `getUniqueFilename`
  run on fuel bounded by the folder size;
* React state updates become explicit state-passing on records.
-/

namespace CameraApp

/-- Strings are modelled as lists of characters. -/
abbrev Str := List Char

/-- Converts a Lean string literal to the `List Char` representation. -/
def str (s : String) : Str := s.data

/-- A JavaScript number as it occurs in this code base: either a natural
number or `NaN` (produced by `Number` / `parseInt` on non-numeric input). -/
inductive JsNum where
  | nan : JsNum
  | num : Nat → JsNum
deriving DecidableEq, Repr

/-- The decimal digit characters used by JavaScript `Number.prototype.toString`. -/
def digitChar : Nat → Char
  | 0 => '0' | 1 => '1' | 2 => '2' | 3 => '3' | 4 => '4'
  | 5 => '5' | 6 => '6' | 7 => '7' | 8 => '8' | 9 => '9'
  | _ => '*'

/-- Numeric value of a decimal digit character. -/
def digitVal (c : Char) : Nat := c.toNat - 48

/-- Fuel-driven digit extraction (structural recursion keeps the definition
kernel-reducible); the fuel always suffices because a number is shorter than
its own successor in digits. -/
def natToStringAux : Nat → Nat → Str
  | 0, _ => []
  | fuel + 1, n =>
    if n < 10 then [digitChar n]
    else natToStringAux fuel (n / 10) ++ [digitChar (n % 10)]

/-- Decimal representation of a natural number, most significant digit first
(JavaScript `n.toString()` for a non-negative integer). -/
def natToString (n : Nat) : Str := natToStringAux (n + 1) n

/-- Value of a string of decimal digits (the shared core of `Number` and
`parseInt` on all-digit input). -/
def digitsToNat (s : Str) : Nat :=
  s.foldl (fun acc c => 10 * acc + digitVal c) 0

/-- The test `/^\d+$/.test(s)`: `s` is non-empty and consists of decimal
digits only. -/
def isNumericStr (s : Str) : Bool := !s.isEmpty && s.all Char.isDigit

/-- JavaScript `Number(s)` restricted to the argument shapes reachable in
this code base: the empty string (`0`), all-digit strings (their decimal
value) and strings that do not denote a number (`NaN`). -/
def jsNumber (s : Str) : JsNum :=
  if s.isEmpty then .num 0
  else if s.all Char.isDigit then .num (digitsToNat s)
  else .nan

/-- JavaScript `s.replace(pat, repl)` with a string pattern: only the first
occurrence of `pat` is replaced. -/
def replaceFirst (pat repl : Str) : Str → Str
  | [] => []
  | c :: rest =>
    if pat.isPrefixOf (c :: rest) then repl ++ (c :: rest).drop pat.length
    else c :: replaceFirst pat repl rest

/-- JavaScript `s.split(sep)` for a single-character separator; the result is
always non-empty. -/
def splitOnChar (sep : Char) : Str → List Str
  | [] => [[]]
  | c :: rest =>
    match splitOnChar sep rest with
    | [] => []
    | h :: t => if c = sep then [] :: h :: t else (c :: h) :: t

/-- JavaScript `parts.join(sep)` for the single-character separator used by
`parseFilename`. -/
def joinHyphen : List Str → Str
  | [] => []
  | [p] => p
  | p :: rest => p ++ '-' :: joinHyphen rest

/-- JavaScript `s.padStart(3, zero)`: left-pad with zeros up to length 3. -/
def padStart3 (s : Str) : Str := List.replicate (3 - s.length) '0' ++ s

/-- The characters rejected by the sanitizing regular expression of the
source (backslash, slash, colon, star, question mark, double quote, angle
brackets, pipe). -/
def isIllegalChar (c : Char) : Bool :=
  c = '\\' || c = '/' || c = ':' || c = '*' || c = '?' || c = '"' ||
  c = '<' || c = '>' || c = '|'

/-- One step of `textLabel.replace(illegal, underscore)`. -/
def sanitizeChar (c : Char) : Char := if isIllegalChar c then '_' else c

/-- Rendering of a JavaScript number in a template literal. -/
def jsNumToStr : JsNum → Str
  | .nan => str "NaN"
  | .num n => natToString n

/-! ### StorageUtils.ts: NamingCodec -/

/-- `StorageUtils.formatFilename(sequence, subSequence?, textLabel?)`.
A present, non-empty `textLabel` is sanitized and used as the stem
(`if (textLabel)` is JavaScript truthiness, so the empty string falls through
to the numeric branch); otherwise the sequence is zero-padded to three
digits.  An optional sub-sequence is appended after a hyphen. -/
def formatFilename (sequence : Nat) (subSequence : Option JsNum)
    (textLabel : Option Str) : Str :=
  match textLabel with
  | some t =>
    if t.isEmpty then
      let seqStr := padStart3 (natToString sequence)
      match subSequence with
      | some sub => seqStr ++ '-' :: jsNumToStr sub ++ str ".jpg"
      | none => seqStr ++ str ".jpg"
    else
      let sanitized := t.map sanitizeChar
      match subSequence with
      | some sub => sanitized ++ '-' :: jsNumToStr sub ++ str ".jpg"
      | none => sanitized ++ str ".jpg"
  | none =>
    let seqStr := padStart3 (natToString sequence)
    match subSequence with
    | some sub => seqStr ++ '-' :: jsNumToStr sub ++ str ".jpg"
    | none => seqStr ++ str ".jpg"

/-- The record returned by `StorageUtils.parseFilename`.  JavaScript
distinguishes an absent `subSequence` field from a present `NaN` one, so the
field is an `Option JsNum`. -/
structure ParsedName where
  sequence : Option Nat := none
  subSequence : Option JsNum := none
  textLabel : Option Str := none
deriving DecidableEq, Repr

/-- `StorageUtils.parseFilename(filename)`: strip the first occurrence of
`.jpg` and then of `.mp4`; if the remaining stem contains a hyphen, the part
after the last hyphen becomes the sub-sequence (through `Number`, so possibly
`NaN`) and the rest is a sequence when all digits, else a text label; a
hyphen-free stem is a sequence when all digits, else a text label. -/
def parseFilename (filename : Str) : ParsedName :=
  let name := replaceFirst (str ".mp4") [] (replaceFirst (str ".jpg") [] filename)
  if '-' ∈ name then
    let parts := splitOnChar '-' name
    let sub := jsNumber ((parts.getLast?).getD [])
    let stem := joinHyphen parts.dropLast
    if isNumericStr stem then
      { sequence := some (digitsToNat stem), subSequence := some sub }
    else
      { textLabel := some stem, subSequence := some sub }
  else if isNumericStr name then { sequence := some (digitsToNat name) }
  else { textLabel := some name }

/-- `StorageUtils.findHighestSequence(folderPath)` on the list of media
filenames returned by `listPhotos`: the running maximum of the `sequence`
fields of the parses, starting from 0. -/
def findHighestSequence (files : List Str) : Nat :=
  files.foldl
    (fun maxSeq f =>
      match (parseFilename f).sequence with
      | some s => if s > maxSeq then s else maxSeq
      | none => maxSeq)
    0

/-- Collision loop of `StorageUtils.getUniqueFilename`: while the candidate
exists in the folder, bump the counter and try `base_<counter><ext>`. -/
def uniqueLoop (existing : List Str) (base ext : Str) :
    Str → Nat → Nat → Str
  | filename, _, 0 => filename
  | filename, counter, fuel + 1 =>
    if filename ∈ existing then
      uniqueLoop existing base ext
        (base ++ '_' :: natToString (counter + 1) ++ ext) (counter + 1) fuel
    else filename

/-- `StorageUtils.getUniqueFilename(folderPath, sequence, subSequence?,
textLabel?)` with the folder contents made explicit.  The extension is `.mp4`
when the formatted name ends in it, else `.jpg`; the collision base is the
name with the first occurrence of the extension removed. -/
def getUniqueFilename (existing : List Str) (sequence : Nat)
    (subSequence : Option JsNum) (textLabel : Option Str) : Str :=
  let filename := formatFilename sequence subSequence textLabel
  let ext := if (str ".mp4").isSuffixOf filename then str ".mp4" else str ".jpg"
  let base := replaceFirst ext [] filename
  uniqueLoop existing base ext filename 1 (existing.length + 1)

/-- Collision loop of `StorageUtils.saveFile`: while the destination exists,
bump the counter and try `base_v<counter><ext>`. -/
def saveLoop (existing : List Str) (base ext : Str) :
    Str → Nat → Nat → Str
  | filename, _, 0 => filename
  | filename, counter, fuel + 1 =>
    if filename ∈ existing then
      saveLoop existing base ext
        (base ++ '_' :: 'v' :: natToString (counter + 1) ++ ext) (counter + 1) fuel
    else filename

/-- `StorageUtils.saveFile(tempPath, folderPath, filename)` with the folder
contents made explicit: the final name avoids collisions with `_v<counter>`
suffixes (the base is the name with the extension sliced off), the captured
file is moved there, and the destination is returned.  Result: the new folder
contents and the saved filename. -/
def saveFile (existing : List Str) (filename : Str) : List Str × Str :=
  let ext := if (str ".mp4").isSuffixOf filename then str ".mp4" else str ".jpg"
  let base := filename.take (filename.length - ext.length)
  let finalFilename := saveLoop existing base ext filename 1 (existing.length + 1)
  (existing ++ [finalFilename], finalFilename)

/-- `StorageUtils.archiveExistingFile(folderPath, filename)` with the folder
and `archive/` contents made explicit.  `moveOk` tells whether the
`RNFS.moveFile` call would succeed; a failed move is caught and reported as
`false` with nothing changed.  `timestamp` is `new Date().getTime()`.
Result: folder contents, archive contents, and the returned boolean. -/
def archiveExistingFile (files archiveFiles : List Str) (moveOk : Bool)
    (timestamp : Nat) (filename : Str) : List Str × List Str × Bool :=
  if filename ∈ files then
    if moveOk then
      let archiveFileName :=
        replaceFirst (str ".jpg") ('_' :: natToString timestamp ++ str ".jpg")
          filename
      (files.erase filename, archiveFiles ++ [archiveFileName], true)
    else (files, archiveFiles, false)
  else (files, archiveFiles, false)

/-! ### SettingsStorage.ts -/

/-- The three resolution modes of each feature setting. -/
inductive SettingMode where
  | default : SettingMode
  | fixed : SettingMode
  | lastUsed : SettingMode
deriving DecidableEq, Repr

/-- `SettingsStorage.getLastUsedState(key)`: look the key up in the last-used
store; `none` models both a never-recorded key and a failed read. -/
def getLastUsedState {T : Type} (store : Str → Option T) (key : Str) :
    Option T :=
  store key

/-- `SettingsStorage.getInitialValue(settings, settingKey, fixedKey,
lastUsedKey, defaultValue)`: the mode and the persisted fixed value are the
two record fields the keys select, and the last-used store is the external
key-value collaborator. -/
def getInitialValue {T : Type} (mode : SettingMode) (fixedValue : Option T)
    (store : Str → Option T) (lastUsedKey : Str) (defaultValue : T) : T :=
  match mode with
  | .fixed => fixedValue.getD defaultValue
  | .lastUsed => (getLastUsedState store lastUsedKey).getD defaultValue
  | .default => defaultValue

/-! ### App.tsx: startup folder resolution -/

/-- A session folder record `{ name, path }`. -/
structure Folder where
  name : Str
  path : Str
deriving DecidableEq, Repr

/-- `StorageUtils.BASE_DIR`, parameterised by the device's external storage
directory path. -/
def BASE_DIR (externalStorageDirectoryPath : Str) : Str :=
  externalStorageDirectoryPath ++ str "/DCIM/WorkPhotos"

/-- The root session record `{ name: WorkPhotos, path: BASE_DIR }` used as the
startup fallback. -/
def rootFolder (externalStorageDirectoryPath : Str) : Folder :=
  { name := str "WorkPhotos", path := BASE_DIR externalStorageDirectoryPath }

/-- The folder-resolution part of the `setup` effect of `App.tsx`:
`fixed` uses the persisted fixed folder only when it still exists on disk
(`existsOnDisk` models `RNFS.exists`), `lastUsed` uses the persisted last
folder, `default` uses nothing; any empty outcome falls back to the root
folder. -/
def resolveStartupFolder (folderMode : SettingMode) (fixedFolder : Option Folder)
    (existsOnDisk : Str → Bool) (lastFolder : Option Folder)
    (externalStorageDirectoryPath : Str) : Folder :=
  let folder : Option Folder :=
    match folderMode with
    | .fixed =>
      match fixedFolder with
      | some f => if existsOnDisk f.path then some f else none
      | none => none
    | .lastUsed => lastFolder
    | .default => none
  folder.getD (rootFolder externalStorageDirectoryPath)

/-! ### CameraView.tsx: capture pipeline and manual index edit -/

/-- The labeling modes of `CameraView`. -/
inductive LabelingMode where
  | single : LabelingMode
  | numberedGroup : LabelingMode
  | textGroup : LabelingMode
deriving DecidableEq, Repr

/-- The sequencing-relevant part of the `CameraView` component state. -/
structure CamState where
  sequence : Nat
  subSequence : Nat
  textLabel : Str
  labelingMode : LabelingMode
  retakeTarget : Option ParsedName
  usedLabels : List Str
deriving DecidableEq, Repr

/-- Outcome of one successful photo capture. -/
structure CaptureResult where
  files : List Str
  archiveFiles : List Str
  archiveOk : Bool
  savedFilename : Str
  state : CamState
deriving DecidableEq, Repr

/-- The non-root photo branch of `CameraView.takePhoto` after a successful
camera shot, with the session folder and `archive/` contents explicit.
The retake target (when set) overrides sequence / sub-sequence / text label
through `?.` and `??`; the filename comes from `getUniqueFilename`;
`archiveExistingFile` runs only when retaking and its boolean result is
discarded; `saveFile` then always runs; finally either the retake target is
cleared, or the grouped sub-sequence (plus the used-label set in text mode),
or the single-mode sequence advances. -/
def takePhoto (files archiveFiles : List Str) (archiveMoveOk : Bool)
    (archiveTimestamp : Nat) (st : CamState) : CaptureResult :=
  let targetSeq :=
    match st.retakeTarget with
    | some r => r.sequence.getD st.sequence
    | none => st.sequence
  let targetSub : Option JsNum :=
    match st.retakeTarget with
    | some r => r.subSequence
    | none =>
      if st.labelingMode ≠ .single then some (.num st.subSequence) else none
  let targetText : Option Str :=
    match st.retakeTarget with
    | some r => r.textLabel
    | none =>
      if st.labelingMode = .textGroup then some st.textLabel else none
  let filename := getUniqueFilename files targetSeq targetSub targetText
  let archived :=
    match st.retakeTarget with
    | some _ =>
      archiveExistingFile files archiveFiles archiveMoveOk archiveTimestamp
        filename
    | none => (files, archiveFiles, false)
  let saved := saveFile archived.1 filename
  let newState :=
    match st.retakeTarget with
    | some _ => { st with retakeTarget := none }
    | none =>
      if st.labelingMode ≠ .single then
        { st with
          subSequence := st.subSequence + 1
          usedLabels :=
            if st.labelingMode = .textGroup && !(st.usedLabels.contains st.textLabel)
            then st.usedLabels ++ [st.textLabel]
            else st.usedLabels }
      else { st with sequence := st.sequence + 1 }
  { files := saved.1
    archiveFiles := archived.2.1
    archiveOk := archived.2.2
    savedFilename := saved.2
    state := newState }

/-- `CameraView.retakeLast`: parse the filename of the last photo and store
it as the retake target. -/
def retakeLast (lastPhotoName : Str) (st : CamState) : CamState :=
  { st with retakeTarget := some (parseFilename lastPhotoName) }

theorem digitChar_isDigit : ∀ n < 10, (digitChar n).isDigit = true := by decide

theorem digitVal_digitChar : ∀ n < 10, digitVal (digitChar n) = n := by decide

theorem digitsToNat_append_singleton (s : Str) (c : Char) :
    digitsToNat (s ++ [c]) = 10 * digitsToNat s + digitVal c := by
  simp [digitsToNat, List.foldl_append]

theorem natToStringAux_spec :
    ∀ n, ∀ fuel, n < fuel →
      (natToStringAux fuel n ≠ [] ∧
        (natToStringAux fuel n).all Char.isDigit = true ∧
        digitsToNat (natToStringAux fuel n) = n) := by
  intro n
  induction n using Nat.strong_induction_on with
  | _ n ih =>
    intro fuel hf
    match fuel with
    | 0 => omega
    | f + 1 =>
      by_cases h10 : n < 10
      · simp [natToStringAux, h10, digitsToNat, digitChar_isDigit n h10,
          digitVal_digitChar n h10]
      · have hdiv : n / 10 < n := Nat.div_lt_self (by omega) (by omega)
        have hfu : n / 10 < f := by omega
        obtain ⟨hne, hall, hval⟩ := ih (n / 10) hdiv f hfu
        refine ⟨by simp [natToStringAux, h10], ?_, ?_⟩
        · simp only [natToStringAux, if_neg h10, List.all_append, hall,
            Bool.true_and, List.all_cons, List.all_nil, Bool.and_true]
          exact digitChar_isDigit (n % 10) (Nat.mod_lt n (by omega))
        · simp only [natToStringAux, if_neg h10]
          rw [digitsToNat_append_singleton, hval,
            digitVal_digitChar (n % 10) (Nat.mod_lt n (by omega))]
          exact Nat.div_add_mod n 10

theorem natToString_ne_nil (n : Nat) : natToString n ≠ [] :=
  (natToStringAux_spec n (n + 1) (Nat.lt_succ_self n)).1

theorem natToString_all_digit (n : Nat) :
    (natToString n).all Char.isDigit = true :=
  (natToStringAux_spec n (n + 1) (Nat.lt_succ_self n)).2.1

theorem digitsToNat_natToString (n : Nat) :
    digitsToNat (natToString n) = n :=
  (natToStringAux_spec n (n + 1) (Nat.lt_succ_self n)).2.2

theorem digit_ne_hyphen {c : Char} (h : c.isDigit = true) : c ≠ '-' := by
  intro hc; subst hc; exact absurd h (by decide)

theorem digit_ne_dot {c : Char} (h : c.isDigit = true) : c ≠ '.' := by
  intro hc; subst hc; exact absurd h (by decide)

theorem all_digit_not_mem_hyphen {s : Str} (h : s.all Char.isDigit = true) :
    '-' ∉ s := by
  intro hm
  exact digit_ne_hyphen (List.all_eq_true.mp h _ hm) rfl

theorem all_digit_not_mem_dot {s : Str} (h : s.all Char.isDigit = true) :
    '.' ∉ s := by
  intro hm
  exact digit_ne_dot (List.all_eq_true.mp h _ hm) rfl

theorem padStart3_all_digit {s : Str} (h : s.all Char.isDigit = true) :
    (padStart3 s).all Char.isDigit = true := by
  simp only [padStart3, List.all_append, h, Bool.and_true]
  exact List.all_eq_true.mpr fun c hc => by
    rw [List.eq_of_mem_replicate hc]; decide

theorem padStart3_ne_nil {s : Str} (h : s ≠ []) : padStart3 s ≠ [] := by
  simp [padStart3, h]

theorem digitsToNat_padStart3 (s : Str) :
    digitsToNat (padStart3 s) = digitsToNat s := by
  have hz : ∀ k, List.foldl (fun acc c => 10 * acc + digitVal c) 0
      (List.replicate k '0') = 0 := by
    intro k
    induction k with
    | zero => rfl
    | succ k ih => simpa [List.replicate_succ, digitVal] using ih
  simp [padStart3, digitsToNat, List.foldl_append, hz]

theorem isNumericStr_padStart3_natToString (n : Nat) :
    isNumericStr (padStart3 (natToString n)) = true := by
  simp [isNumericStr, padStart3_all_digit (natToString_all_digit n),
    List.isEmpty_iff, padStart3_ne_nil (natToString_ne_nil n)]

/-! ### Helper lemmas: string primitives -/

theorem replaceFirst_of_head_notMem {p : Char} {ps repl s : Str}
    (h : ∀ c ∈ s, c ≠ p) : replaceFirst (p :: ps) repl s = s := by
  induction s with
  | nil => rfl
  | cons c rest ih =>
    have hc : c ≠ p := h c (List.mem_cons_self c rest)
    have hpre : (p :: ps).isPrefixOf (c :: rest) = false := by
      simp [List.isPrefixOf, Ne.symm hc]
    simp only [replaceFirst, hpre, Bool.false_eq_true, if_false,
      List.cons.injEq, true_and]
    exact ih fun d hd => h d (List.mem_cons_of_mem c hd)

theorem replaceFirst_append_pat {p : Char} {ps s : Str}
    (h : ∀ c ∈ s, c ≠ p) :
    replaceFirst (p :: ps) [] (s ++ p :: ps) = s := by
  induction s with
  | nil =>
    have hpre : (p :: ps).isPrefixOf ([] ++ p :: ps) = true := by
      rw [List.isPrefixOf_iff_prefix]; exact List.prefix_refl _
    simp [replaceFirst, hpre]
  | cons c rest ih =>
    have hc : c ≠ p := h c (List.mem_cons_self c rest)
    have hpre : (p :: ps).isPrefixOf (c :: (rest ++ p :: ps)) = false := by
      simp [List.isPrefixOf, Ne.symm hc]
    simp only [List.cons_append, replaceFirst, List.append_eq, hpre,
      Bool.false_eq_true, if_false, List.cons.injEq, true_and]
    exact ih fun d hd => h d (List.mem_cons_of_mem c hd)

theorem splitOnChar_ne_nil (sep : Char) : ∀ s, splitOnChar sep s ≠ [] := by
  intro s
  induction s with
  | nil => simp [splitOnChar]
  | cons c rest ih =>
    simp only [splitOnChar]
    match hs : splitOnChar sep rest with
    | [] => exact absurd hs ih
    | h :: t => by_cases hc : c = sep <;> simp [hc]

theorem splitOnChar_of_notMem {sep : Char} {s : Str} (h : sep ∉ s) :
    splitOnChar sep s = [s] := by
  induction s with
  | nil => rfl
  | cons c rest ih =>
    have hc : c ≠ sep := fun hh => h (hh ▸ List.mem_cons_self c rest)
    have hrest : sep ∉ rest := fun hm => h (List.mem_cons_of_mem c hm)
    simp [splitOnChar, ih hrest, hc]

theorem splitOnChar_append_cons {sep : Char} {a : Str} (b : Str)
    (h : sep ∉ a) :
    splitOnChar sep (a ++ sep :: b) = a :: splitOnChar sep b := by
  induction a with
  | nil =>
    simp only [List.nil_append, splitOnChar]
    match hs : splitOnChar sep b with
    | [] => exact absurd hs (splitOnChar_ne_nil sep b)
    | h :: t => simp
  | cons c rest ih =>
    have hc : c ≠ sep := fun hh => h (hh ▸ List.mem_cons_self c rest)
    have hrest : sep ∉ rest := fun hm => h (List.mem_cons_of_mem c hm)
    simp only [List.cons_append, splitOnChar, List.append_eq, ih hrest, hc,
      if_false]

/-! ### Helper lemmas: extension stripping and round trips -/

theorem strip_extensions {stem : Str} (hdot : '.' ∉ stem) :
    replaceFirst (str ".mp4") [] (replaceFirst (str ".jpg") []
      (stem ++ str ".jpg")) = stem := by
  have hne : ∀ c ∈ stem, c ≠ '.' := fun c hc he => hdot (he ▸ hc)
  have h1 : replaceFirst (str ".jpg") [] (stem ++ str ".jpg") = stem := by
    have : str ".jpg" = '.' :: str "jpg" := rfl
    rw [this]
    exact replaceFirst_append_pat hne
  rw [h1]
  have : str ".mp4" = '.' :: str "mp4" := rfl
  rw [this]
  exact replaceFirst_of_head_notMem hne

theorem roundtrip_numeric (seq : Nat) (sub : Option Nat) :
    parseFilename (formatFilename seq (sub.map .num) none) =
      { sequence := some seq, subSequence := sub.map .num, textLabel := none } := by
  have hpad : (padStart3 (natToString seq)).all Char.isDigit = true :=
    padStart3_all_digit (natToString_all_digit seq)
  have hpadDot : '.' ∉ padStart3 (natToString seq) := all_digit_not_mem_dot hpad
  have hpadHy : '-' ∉ padStart3 (natToString seq) := all_digit_not_mem_hyphen hpad
  have hpadVal : digitsToNat (padStart3 (natToString seq)) = seq := by
    rw [digitsToNat_padStart3, digitsToNat_natToString]
  cases sub with
  | none =>
    show parseFilename (formatFilename seq none none) =
      { sequence := some seq, subSequence := none, textLabel := none }
    have hfmt : formatFilename seq none none =
        padStart3 (natToString seq) ++ str ".jpg" := rfl
    rw [hfmt]
    simp only [parseFilename]
    rw [strip_extensions hpadDot]
    rw [if_neg hpadHy, if_pos (isNumericStr_padStart3_natToString seq), hpadVal]
  | some s =>
    have hnts : (natToString s).all Char.isDigit = true := natToString_all_digit s
    have hstemDot : '.' ∉ padStart3 (natToString seq) ++ '-' :: natToString s := by
      intro hm
      rcases List.mem_append.mp hm with hm | hm
      · exact hpadDot hm
      · rcases List.mem_cons.mp hm with hm | hm
        · exact absurd hm.symm (by decide)
        · exact all_digit_not_mem_dot hnts hm
    have hstemHy : '-' ∈ padStart3 (natToString seq) ++ '-' :: natToString s :=
      List.mem_append.mpr (Or.inr (List.mem_cons_self _ _))
    show parseFilename (formatFilename seq (some (.num s)) none) =
      { sequence := some seq, subSequence := some (.num s), textLabel := none }
    have hfmt : formatFilename seq (some (.num s)) none =
        (padStart3 (natToString seq) ++ '-' :: natToString s) ++ str ".jpg" := by
      simp [formatFilename, jsNumToStr]
    rw [hfmt]
    simp only [parseFilename]
    rw [strip_extensions hstemDot, if_pos hstemHy,
      splitOnChar_append_cons (natToString s) hpadHy,
      splitOnChar_of_notMem (all_digit_not_mem_hyphen hnts)]
    have hlast :
        ([padStart3 (natToString seq), natToString s].getLast?).getD [] =
          natToString s := rfl
    have hdrop :
        List.dropLast [padStart3 (natToString seq), natToString s] =
          [padStart3 (natToString seq)] := rfl
    rw [hlast, hdrop]
    have hjoin :
        joinHyphen [padStart3 (natToString seq)] = padStart3 (natToString seq) :=
      rfl
    rw [hjoin, if_pos (isNumericStr_padStart3_natToString seq), hpadVal]
    have hjs : jsNumber (natToString s) = .num s := by
      rw [jsNumber, if_neg (by simp [List.isEmpty_iff, natToString_ne_nil s]),
        if_pos (natToString_all_digit s), digitsToNat_natToString]
    rw [hjs]

theorem roundtrip_label (seq : Nat) (L : Str) (sub : Option Nat)
    (hne : L ≠ []) (hnum : isNumericStr L = false)
    (hsan : ∀ c ∈ L, isIllegalChar c = false)
    (hhy : '-' ∉ L) (hdot : '.' ∉ L) :
    parseFilename (formatFilename seq (sub.map .num) (some L)) =
      { sequence := none, subSequence := sub.map .num, textLabel := some L } := by
  have hemp : L.isEmpty = false := by simp [List.isEmpty_iff, hne]
  have hmap : L.map sanitizeChar = L := by
    have : ∀ c ∈ L, sanitizeChar c = c := fun c hc => by
      simp [sanitizeChar, hsan c hc]
    rw [List.map_congr_left this]
    simp
  cases sub with
  | none =>
    show parseFilename (formatFilename seq none (some L)) =
      { sequence := none, subSequence := none, textLabel := some L }
    have hfmt : formatFilename seq none (some L) = L ++ str ".jpg" := by
      simp [formatFilename, hemp, hmap]
    rw [hfmt]
    simp only [parseFilename]
    rw [strip_extensions hdot]
    rw [if_neg hhy, if_neg (by simp [hnum])]
  | some s =>
    show parseFilename (formatFilename seq (some (.num s)) (some L)) =
      { sequence := none, subSequence := some (.num s), textLabel := some L }
    have hnts : (natToString s).all Char.isDigit = true := natToString_all_digit s
    have hstemDot : '.' ∉ L ++ '-' :: natToString s := by
      intro hm
      rcases List.mem_append.mp hm with hm | hm
      · exact hdot hm
      · rcases List.mem_cons.mp hm with hm | hm
        · exact absurd hm.symm (by decide)
        · exact all_digit_not_mem_dot hnts hm
    have hstemHy : '-' ∈ L ++ '-' :: natToString s :=
      List.mem_append.mpr (Or.inr (List.mem_cons_self _ _))
    have hfmt : formatFilename seq (some (.num s)) (some L) =
        (L ++ '-' :: natToString s) ++ str ".jpg" := by
      simp [formatFilename, jsNumToStr, hemp, hmap]
    rw [hfmt]
    simp only [parseFilename]
    rw [strip_extensions hstemDot, if_pos hstemHy,
      splitOnChar_append_cons (natToString s) hhy,
      splitOnChar_of_notMem (all_digit_not_mem_hyphen hnts)]
    have hlast : ([L, natToString s].getLast?).getD [] = natToString s := rfl
    have hdrop : List.dropLast [L, natToString s] = [L] := rfl
    rw [hlast, hdrop]
    have hjoin : joinHyphen [L] = L := rfl
    rw [hjoin, if_neg (by simp [hnum])]
    have hjs : jsNumber (natToString s) = .num s := by
      rw [jsNumber, if_neg (by simp [List.isEmpty_iff, natToString_ne_nil s]),
        if_pos (natToString_all_digit s), digitsToNat_natToString]
    rw [hjs]

/-! ### Helper lemmas: findHighestSequence -/

/-- Specification-side maximum: the largest `sequence` among the parses of
the folder's filenames, files parsing to a text label only being ignored,
and 0 when none remains. -/
def maxSequenceSpec (files : List Str) : Nat :=
  (files.filterMap fun f => (parseFilename f).sequence).foldr max 0

theorem findHighestSequence_foldl (files : List Str) :
    ∀ acc : Nat,
      files.foldl
        (fun maxSeq f =>
          match (parseFilename f).sequence with
          | some s => if s > maxSeq then s else maxSeq
          | none => maxSeq)
        acc = max acc (maxSequenceSpec files) := by
  induction files with
  | nil => intro acc; simp [maxSequenceSpec]
  | cons f fs ih =>
    intro acc
    simp only [List.foldl_cons]
    rw [ih]
    cases hseq : (parseFilename f).sequence with
    | none => simp [maxSequenceSpec, List.filterMap_cons, hseq]
    | some s =>
      simp only [maxSequenceSpec, List.filterMap_cons, hseq, List.foldr_cons]
      have : (if s > acc then s else acc) = max acc s := by split <;> omega
      rw [this]
      have hmax : max (max acc s)
          ((fs.filterMap fun f => (parseFilename f).sequence).foldr max 0) =
          max acc (max s
            ((fs.filterMap fun f => (parseFilename f).sequence).foldr max 0)) := by
        omega
      exact hmax

theorem findHighestSequence_eq_spec (files : List Str) :
    findHighestSequence files = maxSequenceSpec files := by
  rw [findHighestSequence, findHighestSequence_foldl files 0]
  omega

theorem findHighestSequence_cons_of_no_sequence {f : Str}
    (h : (parseFilename f).sequence = none) (files : List Str) :
    findHighestSequence (f :: files) = findHighestSequence files := by
  rw [findHighestSequence_eq_spec, findHighestSequence_eq_spec]
  simp [maxSequenceSpec, List.filterMap_cons, h]

/-! ### Helper lemmas: collision-suffix shapes -/

theorem mp4_not_suffix_of_jpg (s : Str) :
    (str ".mp4").isSuffixOf (s ++ str ".jpg") = false := by
  by_contra h
  have h' : (str ".mp4") <:+ (s ++ str ".jpg") := by
    rw [← List.isSuffixOf_iff_suffix]
    revert h
    cases (str ".mp4").isSuffixOf (s ++ str ".jpg") <;> simp
  obtain ⟨t, ht⟩ := h'
  have h1 : (t ++ str ".mp") ++ ['4'] = (s ++ str ".jp") ++ ['g'] := by
    simpa [List.append_assoc] using ht
  have h2 : some '4' = some 'g' := by
    rw [← List.getLast?_concat (l := t ++ str ".mp"),
      ← List.getLast?_concat (l := s ++ str ".jp"), h1]
  exact absurd (Option.some.inj h2) (by decide)

theorem replaceFirst_jpg {stem : Str} (hdot : '.' ∉ stem) :
    replaceFirst (str ".jpg") [] (stem ++ str ".jpg") = stem := by
  have hne : ∀ c ∈ stem, c ≠ '.' := fun c hc he => hdot (he ▸ hc)
  have : str ".jpg" = '.' :: str "jpg" := rfl
  rw [this]
  exact replaceFirst_append_pat hne

theorem parse_textlabel_stem {stem : Str} (hdot : '.' ∉ stem)
    (hhy : '-' ∉ stem) (hnum : isNumericStr stem = false) :
    parseFilename (stem ++ str ".jpg") =
      { sequence := none, subSequence := none, textLabel := some stem } := by
  simp only [parseFilename]
  rw [strip_extensions hdot, if_neg hhy, if_neg (by simp [hnum])]

theorem uniqueLoop_shape (existing : List Str) (base ext : Str) :
    ∀ fuel filename counter,
      uniqueLoop existing base ext filename counter fuel = filename ∨
      ∃ k, counter + 1 ≤ k ∧
        uniqueLoop existing base ext filename counter fuel =
          base ++ '_' :: natToString k ++ ext := by
  intro fuel
  induction fuel with
  | zero => intro filename counter; left; rfl
  | succ fuel ih =>
    intro filename counter
    by_cases hmem : filename ∈ existing
    · rcases ih (base ++ '_' :: natToString (counter + 1) ++ ext) (counter + 1)
        with h | ⟨k, hk, h⟩
      · right
        refine ⟨counter + 1, le_refl _, ?_⟩
        simpa [uniqueLoop, hmem] using h
      · right
        refine ⟨k, by omega, ?_⟩
        simpa [uniqueLoop, hmem] using h
    · left; simp [uniqueLoop, hmem]

theorem saveLoop_shape (existing : List Str) (base ext : Str) :
    ∀ fuel filename counter,
      saveLoop existing base ext filename counter fuel = filename ∨
      ∃ k, counter + 1 ≤ k ∧
        saveLoop existing base ext filename counter fuel =
          base ++ '_' :: 'v' :: natToString k ++ ext := by
  intro fuel
  induction fuel with
  | zero => intro filename counter; left; rfl
  | succ fuel ih =>
    intro filename counter
    by_cases hmem : filename ∈ existing
    · rcases ih (base ++ '_' :: 'v' :: natToString (counter + 1) ++ ext)
        (counter + 1) with h | ⟨k, hk, h⟩
      · right
        refine ⟨counter + 1, le_refl _, ?_⟩
        simpa [saveLoop, hmem] using h
      · right
        refine ⟨k, by omega, ?_⟩
        simpa [saveLoop, hmem] using h
    · left; simp [saveLoop, hmem]

theorem getUniqueFilename_numeric_shape (existing : List Str) (seq : Nat) :
    getUniqueFilename existing seq none none = formatFilename seq none none ∨
    ∃ k, 2 ≤ k ∧
      getUniqueFilename existing seq none none =
        (padStart3 (natToString seq) ++ '_' :: natToString k) ++ str ".jpg" := by
  have hpadDot : '.' ∉ padStart3 (natToString seq) :=
    all_digit_not_mem_dot (padStart3_all_digit (natToString_all_digit seq))
  have hfmt : formatFilename seq none none =
      padStart3 (natToString seq) ++ str ".jpg" := rfl
  have hext : ((str ".mp4").isSuffixOf (formatFilename seq none none)) = false := by
    rw [hfmt]; exact mp4_not_suffix_of_jpg _
  have hbase : replaceFirst (str ".jpg") [] (formatFilename seq none none) =
      padStart3 (natToString seq) := by
    rw [hfmt]; exact replaceFirst_jpg hpadDot
  rw [getUniqueFilename]
  simp only [hext, Bool.false_eq_true, if_false, hbase]
  rcases uniqueLoop_shape existing (padStart3 (natToString seq)) (str ".jpg")
      (existing.length + 1) (formatFilename seq none none) 1 with h | ⟨k, hk, h⟩
  · left; exact h
  · right
    exact ⟨k, hk, by rw [h]⟩

theorem saveFile_numeric_shape (existing : List Str) (seq : Nat) :
    (saveFile existing (formatFilename seq none none)).2 =
        formatFilename seq none none ∨
    ∃ k, 2 ≤ k ∧
      (saveFile existing (formatFilename seq none none)).2 =
        (padStart3 (natToString seq) ++ '_' :: 'v' :: natToString k) ++
          str ".jpg" := by
  have hfmt : formatFilename seq none none =
      padStart3 (natToString seq) ++ str ".jpg" := rfl
  have hext : ((str ".mp4").isSuffixOf (formatFilename seq none none)) = false := by
    rw [hfmt]; exact mp4_not_suffix_of_jpg _
  have hbase : (formatFilename seq none none).take
      ((formatFilename seq none none).length - (str ".jpg").length) =
      padStart3 (natToString seq) := by
    rw [hfmt]
    have hlen : (padStart3 (natToString seq) ++ str ".jpg").length -
        (str ".jpg").length = (padStart3 (natToString seq)).length := by
      simp [List.length_append]
    rw [hlen]
    exact List.take_left _ _
  rw [saveFile]
  simp only [hext, Bool.false_eq_true, if_false, hbase]
  rcases saveLoop_shape existing (padStart3 (natToString seq)) (str ".jpg")
      (existing.length + 1) (formatFilename seq none none) 1 with h | ⟨k, hk, h⟩
  · left; exact h
  · right
    exact ⟨k, hk, by rw [h]⟩

theorem not_numeric_of_underscore {stem : Str} (h : '_' ∈ stem) :
    isNumericStr stem = false := by
  rw [isNumericStr]
  have : stem.all Char.isDigit = false := by
    by_contra hh
    have : stem.all Char.isDigit = true := by
      revert hh; cases stem.all Char.isDigit <;> simp
    exact absurd (List.all_eq_true.mp this '_' h) (by decide)
  simp [this]

theorem getUniqueFilename_no_collision {existing : List Str} {seq : Nat}
    {sub : Option JsNum} {lab : Option Str}
    (h : formatFilename seq sub lab ∉ existing) :
    getUniqueFilename existing seq sub lab = formatFilename seq sub lab := by
  rw [getUniqueFilename]
  simp [uniqueLoop, h]

theorem saveFile_no_collision {existing : List Str} {filename : Str}
    (h : filename ∉ existing) :
    saveFile existing filename = (existing ++ [filename], filename) := by
  rw [saveFile]
  simp [saveLoop, h]

/-! ### Helper lemmas: the index editor -/

/-- C1: the claim states that when archiving the pre-existing target of a
retake fails, the save is blocked and no new file is written.  The code does
the opposite: `takePhoto` asks `getUniqueFilename` for a collision-free name
first, so the archive step is handed a name that does not exist (the
pre-existing `005.jpg` is never moved, `archiveExistingFile` returns `false`),
the boolean is discarded, and `saveFile` proceeds to write `005_2.jpg` —
whether or not the filesystem move would have succeeded. -/
theorem C1_retake_archive_failure_does_not_block_save :
    ∀ b : Bool,
      takePhoto [str "005.jpg"] [] b 111
        { sequence := 6, subSequence := 1, textLabel := [],
          labelingMode := .single,
          retakeTarget := some (parseFilename (str "005.jpg")),
          usedLabels := [] } =
        { files := [str "005.jpg", str "005_2.jpg"], archiveFiles := [],
          archiveOk := false, savedFilename := str "005_2.jpg",
          state :=
            { sequence := 6, subSequence := 1, textLabel := [],
              labelingMode := .single, retakeTarget := none,
              usedLabels := [] } } := by
  intro b
  cases b <;> decide

/-- C2: for every sequence in `[1, 999]` and sub-sequence absent or in
`[1, 99]`, parsing the formatted numeric filename returns exactly the
original sequence and sub-sequence. -/
theorem C2_numeric_roundtrip (seq : Nat) (sub : Option Nat)
    (_hseq : 1 ≤ seq ∧ seq ≤ 999)
    (_hsub : ∀ s ∈ sub, 1 ≤ s ∧ s ≤ 99) :
    parseFilename (formatFilename seq (sub.map .num) none) =
      { sequence := some seq, subSequence := sub.map .num, textLabel := none } :=
  roundtrip_numeric seq sub

/-- Witness for C2 at sequence 7, sub-sequence 5. -/
theorem C2_numeric_roundtrip_witness :
    (1 ≤ 7 ∧ 7 ≤ 999) ∧ (∀ s ∈ (some 5 : Option Nat), 1 ≤ s ∧ s ≤ 99) ∧
    parseFilename (formatFilename 7 ((some 5 : Option Nat).map .num) none) =
      { sequence := some 7, subSequence := (some 5 : Option Nat).map .num,
        textLabel := none } :=
  ⟨by decide, by decide,
    C2_numeric_roundtrip 7 (some 5) (by decide) (by decide)⟩

/-- C3 counterexample: the label `A-B` is sanitized (no illegal character)
and non-numeric, yet the round trip fails — `A-B.jpg` splits on the hyphen
and parses as label `A` with a `NaN` sub-sequence. -/
theorem C3_label_roundtrip_cex :
    (∀ c ∈ str "A-B", isIllegalChar c = false) ∧
    isNumericStr (str "A-B") = false ∧
    parseFilename (formatFilename 1 none (some (str "A-B"))) ≠
      { sequence := none, subSequence := none,
        textLabel := some (str "A-B") } := by
  exact ⟨by decide, by decide, by decide⟩

/-- C3 amended: the text-label round trip holds for non-empty, non-numeric
sanitized labels that additionally contain no hyphen and no dot (a hyphen in
a label without sub-sequence is split off as a bogus sub-sequence, and a dot
can collide with the extension stripping). -/
theorem C3_label_roundtrip_amended (seq : Nat) (L : Str) (sub : Option Nat)
    (hne : L ≠ []) (hnum : isNumericStr L = false)
    (hsan : ∀ c ∈ L, isIllegalChar c = false)
    (hhy : '-' ∉ L) (hdot : '.' ∉ L)
    (_hsub : ∀ s ∈ sub, 1 ≤ s) :
    parseFilename (formatFilename seq (sub.map .num) (some L)) =
      { sequence := none, subSequence := sub.map .num,
        textLabel := some L } :=
  roundtrip_label seq L sub hne hnum hsan hhy hdot

/-- Witness for C3 at label `Beam`, sub-sequence 5. -/
theorem C3_label_roundtrip_amended_witness :
    str "Beam" ≠ [] ∧ isNumericStr (str "Beam") = false ∧
    (∀ c ∈ str "Beam", isIllegalChar c = false) ∧
    '-' ∉ str "Beam" ∧ '.' ∉ str "Beam" ∧
    parseFilename (formatFilename 1 ((some 5 : Option Nat).map .num)
        (some (str "Beam"))) =
      { sequence := none, subSequence := (some 5 : Option Nat).map .num,
        textLabel := some (str "Beam") } :=
  ⟨by decide, by decide, by decide, by decide, by decide,
    C3_label_roundtrip_amended 1 (str "Beam") (some 5) (by decide) (by decide)
      (by decide) (by decide) (by decide) (by decide)⟩

/-- C4: `findHighestSequence` is the maximum of the `sequence` fields of the
parses (files parsing to a text label are ignored), is 0 when no file parses
to a sequence, and returns 2 on the folder
`[001.jpg, 002-1.jpg, Beam-3.jpg]`. -/
theorem C4_findHighestSequence_spec (files : List Str) :
    findHighestSequence files = maxSequenceSpec files ∧
    ((∀ f ∈ files, (parseFilename f).sequence = none) →
      findHighestSequence files = 0) ∧
    findHighestSequence [str "001.jpg", str "002-1.jpg", str "Beam-3.jpg"]
      = 2 := by
  refine ⟨findHighestSequence_eq_spec files, ?_, by decide⟩
  intro h
  rw [findHighestSequence_eq_spec, maxSequenceSpec,
    List.filterMap_eq_nil_iff.mpr h]
  rfl

/-- Witness for C4: an all-text-labeled folder yields 0. -/
theorem C4_findHighestSequence_spec_witness :
    findHighestSequence [str "Beam.jpg"] = 0 :=
  (C4_findHighestSequence_spec [str "Beam.jpg"]).2.1 (by decide)

/-- C6: with folder mode `fixed` and a fixed folder whose path no longer
exists on disk, startup resolution returns the root session instead of the
dead path. -/
theorem C6_fixed_folder_missing_falls_back (fixedF : Folder)
    (lastF : Option Folder) (existsOnDisk : Str → Bool) (extDir : Str)
    (hdead : existsOnDisk fixedF.path = false) :
    resolveStartupFolder .fixed (some fixedF) existsOnDisk lastF extDir =
      rootFolder extDir := by
  simp [resolveStartupFolder, hdead]

/-- Witness for C6 with a concrete dead path. -/
theorem C6_fixed_folder_missing_falls_back_witness :
    resolveStartupFolder .fixed
        (some { name := str "Old", path := str "/gone" })
        (fun _ => false) none (str "/storage") =
      rootFolder (str "/storage") :=
  C6_fixed_folder_missing_falls_back
    { name := str "Old", path := str "/gone" } none (fun _ => false)
    (str "/storage") rfl

/-- C7: `getInitialValue` resolves `fixed` to the persisted fixed value with
the default as fallback, `lastUsed` to the recorded last-used value with the
default as fallback, and `default` to the hard-coded default. -/
theorem C7_getInitialValue_resolution {T : Type} (fixedValue : Option T)
    (store : Str → Option T) (lastUsedKey : Str) (defaultValue : T) :
    (∀ v, fixedValue = some v →
      getInitialValue .fixed fixedValue store lastUsedKey defaultValue = v) ∧
    (fixedValue = none →
      getInitialValue .fixed fixedValue store lastUsedKey defaultValue =
        defaultValue) ∧
    (∀ v, getLastUsedState store lastUsedKey = some v →
      getInitialValue .lastUsed fixedValue store lastUsedKey defaultValue = v) ∧
    (getLastUsedState store lastUsedKey = none →
      getInitialValue .lastUsed fixedValue store lastUsedKey defaultValue =
        defaultValue) ∧
    getInitialValue .default fixedValue store lastUsedKey defaultValue =
      defaultValue := by
  refine ⟨fun v hv => ?_, fun hv => ?_, fun v hv => ?_, fun hv => ?_, rfl⟩ <;>
    simp [getInitialValue, getLastUsedState, hv] <;>
    simp [getLastUsedState] at hv <;> simp [hv]

/-- Witness for C7 over `Nat` values. -/
theorem C7_getInitialValue_resolution_witness :
    getInitialValue .fixed (some 3) (fun _ => (none : Option Nat)) (str "k") 9
        = 3 ∧
    getInitialValue .lastUsed none (fun _ => (none : Option Nat)) (str "k") 9
        = 9 :=
  ⟨(C7_getInitialValue_resolution (some 3) (fun _ => none) (str "k") 9).1
      3 rfl,
    (C7_getInitialValue_resolution none (fun _ => none) (str "k") 9).2.2.2.1
      rfl⟩

/-- C9: a successful retake capture leaves the whole sequencing state
unchanged except for clearing the retake target: the new component state is
exactly the old one with `retakeTarget := none`. -/
theorem C9_retake_preserves_sequencing (files archiveFiles : List Str)
    (moveOk : Bool) (ts : Nat) (st : CamState) (r : ParsedName)
    (hrt : st.retakeTarget = some r) :
    (takePhoto files archiveFiles moveOk ts st).state =
      { st with retakeTarget := none } := by
  simp [takePhoto, hrt]

/-- Witness for C9 on a retake of `005.jpg`. -/
theorem C9_retake_preserves_sequencing_witness :
    (takePhoto [str "005.jpg"] [] true 7
        { sequence := 6, subSequence := 4, textLabel := str "Beam",
          labelingMode := .numberedGroup,
          retakeTarget := some (parseFilename (str "005.jpg")),
          usedLabels := [str "Beam"] }).state =
      { sequence := 6, subSequence := 4, textLabel := str "Beam",
        labelingMode := .numberedGroup, retakeTarget := none,
        usedLabels := [str "Beam"] } :=
  C9_retake_preserves_sequencing [str "005.jpg"] [] true 7
    { sequence := 6, subSequence := 4, textLabel := str "Beam",
      labelingMode := .numberedGroup,
      retakeTarget := some (parseFilename (str "005.jpg")),
      usedLabels := [str "Beam"] }
    (parseFilename (str "005.jpg")) rfl

/-- C5 counterexample: in text-group mode with an empty text label the
capture is not rejected — with sequence 7, sub-sequence 2 and an empty
folder, a file `007-2.jpg` (the numeric naming form) is written, the
sub-sequence advances to 3 and the empty label even enters the used-label
set. -/
theorem C5_empty_label_capture_cex :
    takePhoto [] [] true 0
      { sequence := 7, subSequence := 2, textLabel := [],
        labelingMode := .textGroup, retakeTarget := none,
        usedLabels := [] } =
      { files := [str "007-2.jpg"], archiveFiles := [], archiveOk := false,
        savedFilename := str "007-2.jpg",
        state :=
          { sequence := 7, subSequence := 3, textLabel := [],
            labelingMode := .textGroup, retakeTarget := none,
            usedLabels := [[]] } } := by
  decide

/-- C5 amended: a text-group capture with an empty label is not blocked —
`formatFilename` treats the empty label as absent, so the capture is saved
(here stated with a collision-free target) under the numeric form
`sequence-subSequence`, and the sub-sequence still advances. -/
theorem C5_empty_label_capture_not_blocked (files archiveFiles : List Str)
    (moveOk : Bool) (ts : Nat) (st : CamState)
    (hmode : st.labelingMode = .textGroup) (hlabel : st.textLabel = [])
    (hrt : st.retakeTarget = none)
    (hfree : formatFilename st.sequence (some (.num st.subSequence)) none
      ∉ files) :
    (takePhoto files archiveFiles moveOk ts st).savedFilename =
      formatFilename st.sequence (some (.num st.subSequence)) none ∧
    (takePhoto files archiveFiles moveOk ts st).files =
      files ++ [formatFilename st.sequence (some (.num st.subSequence)) none] ∧
    (takePhoto files archiveFiles moveOk ts st).state.subSequence =
      st.subSequence + 1 ∧
    (takePhoto files archiveFiles moveOk ts st).state.sequence =
      st.sequence := by
  have hemp : formatFilename st.sequence (some (.num st.subSequence))
      (some []) = formatFilename st.sequence (some (.num st.subSequence))
      none := rfl
  have hfree2 : formatFilename st.sequence (some (.num st.subSequence))
      (some []) ∉ files := by rw [hemp]; exact hfree
  have huniq : getUniqueFilename files st.sequence
      (some (.num st.subSequence)) (some []) =
      formatFilename st.sequence (some (.num st.subSequence)) none := by
    rw [getUniqueFilename_no_collision hfree2, hemp]
  simp [takePhoto, hrt, hmode, hlabel, huniq, saveFile_no_collision hfree]

/-- Witness for C5: empty label, sequence 7, sub-sequence 2, empty folder. -/
theorem C5_empty_label_capture_not_blocked_witness :
    (takePhoto [] [] true 0
        { sequence := 7, subSequence := 2, textLabel := [],
          labelingMode := .textGroup, retakeTarget := none,
          usedLabels := [] }).savedFilename =
      formatFilename 7 (some (.num 2)) none ∧
    (takePhoto [] [] true 0
        { sequence := 7, subSequence := 2, textLabel := [],
          labelingMode := .textGroup, retakeTarget := none,
          usedLabels := [] }).files =
      [] ++ [formatFilename 7 (some (.num 2)) none] ∧
    (takePhoto [] [] true 0
        { sequence := 7, subSequence := 2, textLabel := [],
          labelingMode := .textGroup, retakeTarget := none,
          usedLabels := [] }).state.subSequence = 2 + 1 ∧
    (takePhoto [] [] true 0
        { sequence := 7, subSequence := 2, textLabel := [],
          labelingMode := .textGroup, retakeTarget := none,
          usedLabels := [] }).state.sequence = 7 :=
  C5_empty_label_capture_not_blocked [] [] true 0
    { sequence := 7, subSequence := 2, textLabel := [],
      labelingMode := .textGroup, retakeTarget := none, usedLabels := [] }
    rfl rfl rfl (by decide)

/-- C10 counterexample: the collision-suffixed name produced for a capture
with sequence 3 and sub-sequence 1 over a folder already holding
`003-1.jpg` is `003-1_2.jpg`, which parses with `sequence = 3` (not as a
text label, because the stem still contains a hyphen), so
`findHighestSequence` does count it. -/
theorem C10_hyphenated_suffix_cex :
    getUniqueFilename [str "003-1.jpg"] 3 (some (.num 1)) none =
      str "003-1_2.jpg" ∧
    parseFilename (str "003-1_2.jpg") =
      { sequence := some 3, subSequence := some .nan, textLabel := none } ∧
    findHighestSequence [str "003-1_2.jpg"] = 3 := by
  exact ⟨by decide, by decide, by decide⟩

/-- C10 amended: for the hyphen-free numeric form (no sub-sequence, no
label), every collision-suffixed name produced by `getUniqueFilename`
(`NNN_k`) or `saveFile` (`NNN_vk`) has suffix index at least 2, parses as a
text label with no `sequence`, and is therefore ignored by
`findHighestSequence`; suffixed names derived from hyphenated stems (see the
counterexample) keep their sequence instead. -/
theorem C10_collision_suffix_amended (existing files : List Str) (seq : Nat) :
    (getUniqueFilename existing seq none none ≠ formatFilename seq none none →
      ∃ k, 2 ≤ k ∧
        getUniqueFilename existing seq none none =
          (padStart3 (natToString seq) ++ '_' :: natToString k) ++
            str ".jpg" ∧
        parseFilename (getUniqueFilename existing seq none none) =
          { sequence := none, subSequence := none,
            textLabel :=
              some (padStart3 (natToString seq) ++ '_' :: natToString k) } ∧
        findHighestSequence
            (getUniqueFilename existing seq none none :: files) =
          findHighestSequence files) ∧
    ((saveFile existing (formatFilename seq none none)).2 ≠
        formatFilename seq none none →
      ∃ k, 2 ≤ k ∧
        (saveFile existing (formatFilename seq none none)).2 =
          (padStart3 (natToString seq) ++ '_' :: 'v' :: natToString k) ++
            str ".jpg" ∧
        parseFilename ((saveFile existing (formatFilename seq none none)).2) =
          { sequence := none, subSequence := none,
            textLabel :=
              some (padStart3 (natToString seq) ++ '_' :: 'v' ::
                natToString k) } ∧
        findHighestSequence
            ((saveFile existing (formatFilename seq none none)).2 :: files) =
          findHighestSequence files) := by
  have hpad : (padStart3 (natToString seq)).all Char.isDigit = true :=
    padStart3_all_digit (natToString_all_digit seq)
  constructor
  · intro hne
    rcases getUniqueFilename_numeric_shape existing seq with h | ⟨k, hk, h⟩
    · exact absurd h hne
    · have hnts : (natToString k).all Char.isDigit = true :=
        natToString_all_digit k
      have hdot : '.' ∉ padStart3 (natToString seq) ++ '_' :: natToString k := by
        intro hm
        rcases List.mem_append.mp hm with hm | hm
        · exact all_digit_not_mem_dot hpad hm
        · rcases List.mem_cons.mp hm with hm | hm
          · exact absurd hm.symm (by decide)
          · exact all_digit_not_mem_dot hnts hm
      have hhy : '-' ∉ padStart3 (natToString seq) ++ '_' :: natToString k := by
        intro hm
        rcases List.mem_append.mp hm with hm | hm
        · exact all_digit_not_mem_hyphen hpad hm
        · rcases List.mem_cons.mp hm with hm | hm
          · exact absurd hm.symm (by decide)
          · exact all_digit_not_mem_hyphen hnts hm
      have hnum : isNumericStr
          (padStart3 (natToString seq) ++ '_' :: natToString k) = false :=
        not_numeric_of_underscore
          (List.mem_append.mpr (Or.inr (List.mem_cons_self _ _)))
      have hparse : parseFilename (getUniqueFilename existing seq none none) =
          { sequence := none, subSequence := none,
            textLabel :=
              some (padStart3 (natToString seq) ++ '_' :: natToString k) } := by
        rw [h]
        exact parse_textlabel_stem hdot hhy hnum
      refine ⟨k, hk, h, hparse, ?_⟩
      exact findHighestSequence_cons_of_no_sequence (by rw [hparse]) files
  · intro hne
    rcases saveFile_numeric_shape existing seq with h | ⟨k, hk, h⟩
    · exact absurd h hne
    · have hnts : (natToString k).all Char.isDigit = true :=
        natToString_all_digit k
      have hdot : '.' ∉ padStart3 (natToString seq) ++ '_' :: 'v' ::
          natToString k := by
        intro hm
        rcases List.mem_append.mp hm with hm | hm
        · exact all_digit_not_mem_dot hpad hm
        · rcases List.mem_cons.mp hm with hm | hm
          · exact absurd hm.symm (by decide)
          · rcases List.mem_cons.mp hm with hm | hm
            · exact absurd hm.symm (by decide)
            · exact all_digit_not_mem_dot hnts hm
      have hhy : '-' ∉ padStart3 (natToString seq) ++ '_' :: 'v' ::
          natToString k := by
        intro hm
        rcases List.mem_append.mp hm with hm | hm
        · exact all_digit_not_mem_hyphen hpad hm
        · rcases List.mem_cons.mp hm with hm | hm
          · exact absurd hm.symm (by decide)
          · rcases List.mem_cons.mp hm with hm | hm
            · exact absurd hm.symm (by decide)
            · exact all_digit_not_mem_hyphen hnts hm
      have hnum : isNumericStr
          (padStart3 (natToString seq) ++ '_' :: 'v' :: natToString k) =
          false :=
        not_numeric_of_underscore
          (List.mem_append.mpr (Or.inr (List.mem_cons_self _ _)))
      have hparse : parseFilename
          ((saveFile existing (formatFilename seq none none)).2) =
          { sequence := none, subSequence := none,
            textLabel :=
              some (padStart3 (natToString seq) ++ '_' :: 'v' ::
                natToString k) } := by
        rw [h]
        exact parse_textlabel_stem hdot hhy hnum
      refine ⟨k, hk, h, hparse, ?_⟩
      exact findHighestSequence_cons_of_no_sequence (by rw [hparse]) files

/-- Witness for C10: over a folder holding `003.jpg`, the suffixed results
exist and are ignored by `findHighestSequence`. -/
theorem C10_collision_suffix_amended_witness :
    (∃ k, 2 ≤ k ∧
      getUniqueFilename [str "003.jpg"] 3 none none =
        (padStart3 (natToString 3) ++ '_' :: natToString k) ++ str ".jpg" ∧
      parseFilename (getUniqueFilename [str "003.jpg"] 3 none none) =
        { sequence := none, subSequence := none,
          textLabel :=
            some (padStart3 (natToString 3) ++ '_' :: natToString k) } ∧
      findHighestSequence
          (getUniqueFilename [str "003.jpg"] 3 none none :: [str "003.jpg"]) =
        findHighestSequence [str "003.jpg"]) ∧
    (∃ k, 2 ≤ k ∧
      (saveFile [str "003.jpg"] (formatFilename 3 none none)).2 =
        (padStart3 (natToString 3) ++ '_' :: 'v' :: natToString k) ++
          str ".jpg" ∧
      parseFilename ((saveFile [str "003.jpg"] (formatFilename 3 none none)).2) =
        { sequence := none, subSequence := none,
          textLabel :=
            some (padStart3 (natToString 3) ++ '_' :: 'v' ::
              natToString k) } ∧
      findHighestSequence
          ((saveFile [str "003.jpg"] (formatFilename 3 none none)).2 ::
            [str "003.jpg"]) =
        findHighestSequence [str "003.jpg"]) :=
  ⟨(C10_collision_suffix_amended [str "003.jpg"] [str "003.jpg"] 3).1
      (by decide),
    (C10_collision_suffix_amended [str "003.jpg"] [str "003.jpg"] 3).2
      (by decide)⟩

end CameraApp
